import Mathlib

/-!
Shallow embedding of the data-ingestion and state-reconstruction layer of the
Gold-Price-Forecasting dashboard (`GoldForecastApp` in the repository's main
script).  JavaScript numbers are modelled as `JNum` (a rational or NaN);
`Math.random()` draws and date formatting are passed as explicit parameters,
mirroring the code's call sites.  All definitions are translated from the
source functions `processLoadedData`, `processBacktestingData`,
`generatePredictions`, `generateSampleData`, `loadData` and
`simulateMarketMovement`.
-/

set_option maxHeartbeats 1000000

namespace GoldForecast

/-- A JavaScript numeric value: NaN or a (rational) number. -/
inductive JNum where
  | nan : JNum
  | num : ℚ → JNum
deriving DecidableEq

/-- JS multiplication on numbers: NaN is absorbing. -/
def JNum.mul : JNum → JNum → JNum
  | JNum.num a, JNum.num b => JNum.num (a * b)
  | _, _ => JNum.nan

/-- `Number(x) || d` for a possibly-undefined `x`: undefined, NaN and 0 all
fall back to the default `d`. -/
def numOr (x : Option JNum) (d : ℚ) : ℚ :=
  match x with
  | some (JNum.num q) => if q = 0 then d else q
  | _ => d

/-- Raw historical entry: field names vary by source (`price`/`close`/`Close`/`c`);
`none` models an absent (undefined/null) field.  A `date` of `some ""` models a
present but falsy date. -/
structure RawEntry where
  date : Option String
  price : Option JNum
  close : Option JNum
  Close : Option JNum
  c : Option JNum
deriving DecidableEq

/-- The `gold_price` wrapper object of some payload shapes. -/
structure RawGold where
  data : Option (List RawEntry)
deriving DecidableEq

/-- `payload.predictions`: model name → prediction array, plus forecast dates.
JS object entries are modelled as an association list in insertion order. -/
structure RawPredictions where
  models : Option (List (String × List JNum))
  dates : Option (List String)
deriving DecidableEq

/-- `payload.confidence.ensemble`. -/
structure RawEnsembleConf where
  avg_confidence : Option JNum
deriving DecidableEq

/-- `payload.confidence`. -/
structure RawConfidence where
  ensemble : Option RawEnsembleConf
deriving DecidableEq

/-- One entry of `payload.prediction_vs_actual`. -/
structure RawPVA where
  date : Option String
  predicted : Option JNum
  actual : Option JNum
deriving DecidableEq

/-- `payload.evaluation` (upstream evaluation record). -/
structure RawEval where
  date : String
  today_actual : ℚ
  yesterday_pred : ℚ
  mae : ℚ
  mape : ℚ
deriving DecidableEq

/-- An upstream JSON payload, with every field optional. -/
structure RawPayload where
  current_price : Option JNum
  historical_data : Option (List RawEntry)
  gold_price : Option RawGold
  predictions : Option RawPredictions
  confidence : Option RawConfidence
  prediction_vs_actual : Option (List RawPVA)
  evaluation : Option RawEval
deriving DecidableEq

/-- Canonical historical point `{date, price, volume?}`. -/
structure HistPoint where
  date : String
  price : ℚ
  volume : Option ℚ
deriving DecidableEq

/-- One point of the 7-day forecast series. -/
structure WeekPoint where
  date : String
  price : ℚ
deriving DecidableEq

/-- The `predictions` state: today's per-model values, week series, confidence. -/
structure Predictions where
  today : List (String × JNum)
  week : List WeekPoint
  confidence : ℚ
deriving DecidableEq

/-- One backtesting record, with the rolling mae/mape stored on it. -/
structure BacktestRecord where
  date : String
  actual : ℚ
  predicted : ℚ
  error : ℚ
  errorPercent : ℚ
  mae : ℚ
  mape : ℚ
deriving DecidableEq

/-- One normalized `prediction_vs_actual` record. -/
structure PVARec where
  date : String
  predicted : ℚ
  actual : Option JNum
deriving DecidableEq

/-- The app's claim-relevant mutable state. -/
structure AppState where
  currentPrice : ℚ
  predictions : Predictions
  historicalData : List HistPoint
  backtestingData : List BacktestRecord
  predictionVsActual : Option (List PVARec)
deriving DecidableEq

/-- `Math.round(q * 100) / 100` (JS rounds half toward +infinity). -/
def round2 (q : ℚ) : ℚ := ((⌊q * 100 + 1/2⌋ : ℤ) : ℚ) / 100

/-- `Math.floor`. -/
def jsFloor (q : ℚ) : ℚ := ((⌊q⌋ : ℤ) : ℚ)

/-- `Math.abs`. -/
def jsAbs (q : ℚ) : ℚ := if q < 0 then -q else q

/-- `d.price ?? d.close ?? d.Close ?? d.c` (nullish coalescing: first present). -/
def rawPriceField (d : RawEntry) : Option JNum :=
  d.price.orElse fun _ => d.close.orElse fun _ => d.Close.orElse fun _ => d.c

/-- The map step of history normalization:
`{date: d.date, price: Number(d.price ?? d.close ?? d.Close ?? d.c) || 0}`. -/
def mapHistEntry (d : RawEntry) : HistPoint :=
  { date := d.date.getD "", price := numOr (rawPriceField d) 0, volume := none }

/-- The filter step `x.date && x.price` (truthiness of both fields). -/
def keepHist (x : HistPoint) : Bool :=
  decide (x.date ≠ "") && decide (x.price ≠ 0)

/-- `rawHistory.map(...).filter(x => x.date && x.price)`. -/
def normHistoricalData (raw : List RawEntry) : List HistPoint :=
  (raw.map mapHistEntry).filter keepHist

/-- `data.historical_data || data.gold_price?.data || []` (an array, even
empty, is truthy so a present `historical_data` always wins). -/
def rawHistoryOf (p : RawPayload) : List RawEntry :=
  match p.historical_data with
  | some l => l
  | none => (p.gold_price.bind RawGold.data).getD []

/-- `Number(data.current_price || 0) || 2000`: any value whose numeric coercion
is 0 or NaN (or an absent value) yields the 2000 placeholder. -/
def normCurrentPrice (x : Option JNum) : ℚ := numOr x 2000

/-- The backtest record built from `data.evaluation`. -/
def evalRecord (ev : RawEval) : BacktestRecord :=
  { date := ev.date, actual := ev.today_actual, predicted := ev.yesterday_pred,
    error := jsAbs (ev.today_actual - ev.yesterday_pred),
    errorPercent := jsAbs (ev.today_actual - ev.yesterday_pred) / ev.today_actual * 100,
    mae := ev.mae, mape := ev.mape }

/-- One iteration of the synthetic-backtest `forEach` body (index > 0):
`r` is the `Math.random()` draw of that iteration. -/
def btStep (acc : List BacktestRecord) (prevPt curPt : HistPoint) (r : ℚ) :
    List BacktestRecord :=
  let predictionError := (r - 1/2) * (2/100)
  let predicted := prevPt.price * (1 + predictionError)
  let actual := curPt.price
  let error := jsAbs (actual - predicted)
  let errorPercent := error / actual * 100
  let mae :=
    if 0 < acc.length then
      (acc.foldl (fun s d => s + d.error) 0 + error) / ((acc.length : ℚ) + 1)
    else error
  let mape :=
    if 0 < acc.length then
      (acc.foldl (fun s d => s + d.errorPercent) 0 + errorPercent) / ((acc.length : ℚ) + 1)
    else errorPercent
  acc ++ [{ date := curPt.date, actual := actual, predicted := predicted,
            error := error, errorPercent := errorPercent, mae := mae, mape := mape }]

/-- The `historicalData.forEach` loop over consecutive pairs of the window,
skipping the first point; `b` is the stream of `Math.random()` draws. -/
def btLoop (b : ℕ → ℚ) : List BacktestRecord → List HistPoint → ℕ → List BacktestRecord
  | acc, p :: q :: rest, i => btLoop b (btStep acc p q (b i)) (q :: rest) (i + 1)
  | acc, _, _ => acc

/-- `processBacktestingData`: optional evaluation record first, then the
synthetic loop over the last 30 days of the (already normalized) history. -/
def processBacktestingData (p : RawPayload) (b : ℕ → ℚ) (hist : List HistPoint) :
    List BacktestRecord :=
  let base := match p.evaluation with
    | some ev => [evalRecord ev]
    | none => []
  btLoop b base (hist.drop (hist.length - 30)) 1

/-- The `Math.random()` draws and future dates consumed by `generatePredictions`
(and by the identically-shaped prediction block of `generateSampleData`). -/
structure GPNoise where
  rBiGRU : ℚ
  rTcn : ℚ
  rTransformer : ℚ
  rEnsemble : ℚ
  rConf : ℚ
  rWeek : ℕ → ℚ
  dWeek : ℕ → String

/-- The 7-day loop: `currentPred *= (1 + (rand - 0.5) * 0.015)` then push the
rounded value; `i` is the day index, the fuel counts remaining iterations. -/
def weekFrom (rW : ℕ → ℚ) (dW : ℕ → String) : ℕ → ℕ → ℚ → List WeekPoint
  | _, 0, _ => []
  | i, fuel + 1, pred =>
    let p := pred * (1 + (rW i - 1/2) * (15/1000))
    { date := dW i, price := round2 p } :: weekFrom rW dW (i + 1) fuel p

/-- `generatePredictions`: the randomized fallback used when the payload has no
`predictions.models`; also the prediction block of `generateSampleData`. -/
def generatePredictions (g : GPNoise) (currentPrice : ℚ) : Predictions :=
  let ensembleToday := currentPrice * (1 + (g.rEnsemble - 1/2) * (8/1000))
  { today := [("biGRU", JNum.num (currentPrice * (1 + (g.rBiGRU - 1/2) * (1/100)))),
              ("tcn", JNum.num (currentPrice * (1 + (g.rTcn - 1/2) * (1/100)))),
              ("transformer", JNum.num (currentPrice * (1 + (g.rTransformer - 1/2) * (1/100)))),
              ("ensemble", JNum.num ensembleToday)],
    week := weekFrom g.rWeek g.dWeek 1 7 ensembleToday,
    confidence := 85 + g.rConf * 10 }

/-- Today's per-model predictions: first element of each model's array,
entries with an empty array skipped (`Array.isArray(preds) && preds.length > 0`). -/
def mainToday (models : List (String × List JNum)) : List (String × JNum) :=
  models.filterMap fun kv =>
    match kv.2 with
    | [] => none
    | x :: _ => some (kv.1, x)

/-- Week series: zip `predictions.dates` with the ensemble array by index;
`Number(ensemble[idx]) || null` then drop the null prices. -/
def mainWeek (dates : List String) (ens : List JNum) : List WeekPoint :=
  dates.enum.filterMap fun ie =>
    match ens.get? ie.1 with
    | some (JNum.num q) => if q = 0 then none else some { date := ie.2, price := q }
    | _ => none

/-- Confidence: 90 unless `data.confidence.ensemble` exists, in which case
`Number(avg_confidence) || 90`. -/
def normConfidence (c : Option RawConfidence) : ℚ :=
  match c with
  | some cc =>
    match cc.ensemble with
    | some e => numOr e.avg_confidence 90
    | none => 90
  | none => 90

/-- `prediction_vs_actual` normalization: map then filter
`r.date && !Number.isNaN(r.predicted)`. -/
def normPVA (l : List RawPVA) : List PVARec :=
  l.filterMap fun r =>
    match r.predicted.getD JNum.nan with
    | JNum.num q =>
      match r.date with
      | some s => if s = "" then none else some { date := s, predicted := q, actual := r.actual }
      | none => none
    | JNum.nan => none

/-- `processLoadedData`: normalize current price and history, rebuild the
backtest series, then either extract predictions from `predictions.models`
or fall back to `generatePredictions`.  `g` supplies the fallback's random
draws, `b` the backtest loop's. -/
def processLoadedData (p : RawPayload) (g : GPNoise) (b : ℕ → ℚ) (st : AppState) :
    AppState :=
  let currentPrice := normCurrentPrice p.current_price
  let historicalData := normHistoricalData (rawHistoryOf p)
  let backtestingData := processBacktestingData p b historicalData
  match p.predictions with
  | some pr =>
    match pr.models with
    | some models =>
      { currentPrice := currentPrice,
        historicalData := historicalData,
        backtestingData := backtestingData,
        predictions :=
          { today := mainToday models,
            week := mainWeek (pr.dates.getD []) ((models.lookup "ensemble").getD []),
            confidence := normConfidence p.confidence },
        predictionVsActual :=
          match p.prediction_vs_actual with
          | some l => some (normPVA l)
          | none => st.predictionVsActual }
    | none =>
      { currentPrice := currentPrice,
        historicalData := historicalData,
        backtestingData := backtestingData,
        predictions := generatePredictions g currentPrice,
        predictionVsActual := st.predictionVsActual }
  | none =>
    { currentPrice := currentPrice,
      historicalData := historicalData,
      backtestingData := backtestingData,
      predictions := generatePredictions g currentPrice,
      predictionVsActual := st.predictionVsActual }

/-- `const days = 90` of `generateSampleData`. -/
def sampleDays : ℕ := 90

/-- One iteration of the sample-generation loop (index `i` counts down from 90):
the first point is the 2000 base price, later points multiply the previously
stored (rounded) price by trend plus noise. -/
def sampleStep (hN vN : ℕ → ℚ) (dateOf : ℤ → String) (acc : List HistPoint) (i : ℕ) :
    List HistPoint :=
  let volatility : ℚ := 2/100
  let trend := -(1/10000) * (i : ℚ)
  let randomChange := (hN i - 1/2) * volatility
  let price :=
    if i = sampleDays then (2000 : ℚ)
    else ((acc.getLast?.map HistPoint.price).getD 0) * (1 + trend + randomChange)
  acc ++ [{ date := dateOf (-(i : ℤ)), price := round2 price,
            volume := some (jsFloor (vN i * 100000) + 50000) }]

/-- The full `for (i = days; i >= 0; i--)` loop: 91 iterations. -/
def sampleHist (hN vN : ℕ → ℚ) (dateOf : ℤ → String) : List HistPoint :=
  (List.range (sampleDays + 1)).foldl (fun acc j => sampleStep hN vN dateOf acc (sampleDays - j)) []

/-- `generateSampleData`: synthetic history, current price read back from the
last stored point, and a randomized prediction block (written inline in the
source with exactly the formulas of `generatePredictions`). -/
def generateSampleData (hN vN : ℕ → ℚ) (dateOf : ℤ → String) (g : GPNoise) (s : AppState) :
    AppState :=
  let historicalData := sampleHist hN vN dateOf
  let currentPrice := (historicalData.getLast?.map HistPoint.price).getD 0
  { s with currentPrice := currentPrice,
           historicalData := historicalData,
           predictions := generatePredictions g currentPrice }

/-- Outcome of one source attempt.  Beyond a non-2xx/network failure and a
JSON parse failure, a 2xx response with parseable JSON can still fail to
load: `processLoadedData` runs inside the loop's `try`, so a body on which it
throws a `TypeError` is caught like any other error and the loop advances to
the next source.  Two such parseable-but-throwing bodies are modelled, each
traced to its throwing expression in the source:
`nullJson` is the JSON document `null` (reading `data.current_price` throws,
before any assignment happens), and `historyNotArray cp` is an object whose
`current_price` is `cp` and whose truthy `historical_data` is not an array
(`(rawHistory || []).map` throws, after `this.currentPrice` was assigned). -/
inductive FetchOutcome where
  | httpError : FetchOutcome
  | parseError : FetchOutcome
  | nullJson : FetchOutcome
  | historyNotArray : Option JNum → FetchOutcome
  | payload : RawPayload → FetchOutcome
deriving DecidableEq

/-- Whether an attempt parses and is processed to completion — only then does
the loop set `loaded = true` and `break`. -/
def FetchOutcome.isPayload : FetchOutcome → Bool
  | FetchOutcome.payload _ => true
  | _ => false

/-- The partial state mutation a non-loading attempt leaves behind: a
fetch/parse failure or a `null` body touches nothing, while a truthy
non-array history throws only after `this.currentPrice` was assigned. -/
def throwEffect : FetchOutcome → AppState → AppState
  | FetchOutcome.historyNotArray cp, st => { st with currentPrice := normCurrentPrice cp }
  | _, st => st

/-- The `for (const url of sources)` loop's winner: index and payload of the
first source that fetches, parses and processes without throwing, if any. -/
def firstSuccess : List FetchOutcome → Option (ℕ × RawPayload)
  | [] => none
  | FetchOutcome.payload p :: _ => some (0, p)
  | _ :: rest => (firstSuccess rest).map fun ip => (ip.1 + 1, ip.2)

/-- The list of sources actually attempted: everything up to and including the
first fully-processed payload (the loop `break`s only there — parseable
bodies on which processing throws do not stop it), or all of them. -/
def attemptedSources : List FetchOutcome → List FetchOutcome
  | [] => []
  | FetchOutcome.payload p :: _ => [FetchOutcome.payload p]
  | o :: rest => o :: attemptedSources rest

/-- The source loop of `loadData`, threading the state (partial mutations of
throwing attempts persist on the app object) and the `loaded` flag. -/
def loadLoop (g : GPNoise) (b : ℕ → ℚ) : List FetchOutcome → AppState → AppState × Bool
  | [], st => (st, false)
  | FetchOutcome.payload p :: _, st => (processLoadedData p g b st, true)
  | o :: rest, st => loadLoop g b rest (throwEffect o st)

/-- `loadData`: run the source loop; if no source loaded, generate sample
data. -/
def loadData (outs : List FetchOutcome) (g : GPNoise) (b : ℕ → ℚ)
    (hN vN : ℕ → ℚ) (dateOf : ℤ → String) (gs : GPNoise) (s : AppState) : AppState :=
  match loadLoop g b outs s with
  | (st, true) => st
  | (st, false) => generateSampleData hN vN dateOf gs st

/-- `simulateMarketMovement` (one refresh tick): jitter the current price and
each of today's per-model predictions, append a `{date: now, price, volume}`
point, and cap the history at the last 90 entries. -/
def simulateMarketMovement (pr : ℚ) (mr : String → ℚ) (vr : ℚ) (now : String)
    (s : AppState) : AppState :=
  let change := (pr - 1/2) * (5/1000)
  let currentPrice := s.currentPrice * (1 + change)
  let today := s.predictions.today.map fun kv =>
    (kv.1, kv.2.mul (JNum.num (1 + (mr kv.1 - 1/2) * (3/1000))))
  let pushed := s.historicalData ++
    [{ date := now, price := currentPrice, volume := some (jsFloor (vr * 100000) + 50000) }]
  let historicalData := if 90 < pushed.length then pushed.drop (pushed.length - 90) else pushed
  { s with currentPrice := currentPrice,
           predictions := { s.predictions with today := today },
           historicalData := historicalData }

/-- The constructor's initial state. -/
def initState : AppState :=
  { currentPrice := 0,
    predictions := { today := [], week := [], confidence := 90 },
    historicalData := [], backtestingData := [], predictionVsActual := none }

/-- Whether the payload takes the main predictions branch
(`data.predictions && data.predictions.models`). -/
def hasModels (p : RawPayload) : Bool :=
  match p.predictions with
  | some pr => pr.models.isSome
  | none => false

/-! ## Concrete fixtures used by witnesses and counterexamples -/

/-- A trivial noise bundle (all draws 0, empty dates). -/
def gEx : GPNoise := ⟨0, 0, 0, 0, 0, fun _ => 0, fun _ => ""⟩

/-- A second noise bundle differing only in the confidence draw. -/
def gB : GPNoise := ⟨0, 0, 0, 0, 1, fun _ => 0, fun _ => ""⟩

/-- A trivial backtest noise stream. -/
def bEx : ℕ → ℚ := fun _ => 0

/-- Mid-range noise stream (`Math.random() = 0.5`, so zero jitter). -/
def bHalf : ℕ → ℚ := fun _ => 1/2

/-- A trivial date formatter. -/
def dEx : ℤ → String := fun _ => ""

/-- The completely empty payload (`{}`). -/
def pEmpty : RawPayload := ⟨none, none, none, none, none, none, none⟩

/-- Payload whose `current_price` is exactly 0. -/
def pCp0 : RawPayload := ⟨some (JNum.num 0), none, none, none, none, none, none⟩

/-- Payload with a models object and an out-of-range `avg_confidence` of 150. -/
def pC1 : RawPayload :=
  { current_price := some (JNum.num 1950),
    historical_data := some [⟨some "2025-01-01", some (JNum.num 1900), none, none, none⟩],
    gold_price := none,
    predictions := some { models := some [("ensemble", [JNum.num 1935])],
                          dates := some ["2025-01-03"] },
    confidence := some { ensemble := some { avg_confidence := some (JNum.num 150) } },
    prediction_vs_actual := none,
    evaluation := none }

/-- Payload whose history contains two entries with the same date. -/
def pC2 : RawPayload :=
  { current_price := none,
    historical_data := some [⟨some "2025-01-01", some (JNum.num 1900), none, none, none⟩,
                             ⟨some "2025-01-01", some (JNum.num 1920), none, none, none⟩],
    gold_price := none, predictions := none, confidence := none,
    prediction_vs_actual := none, evaluation := none }

/-- A three-point historical window for backtest evaluation. -/
def wEx : List HistPoint := [⟨"d1", 100, none⟩, ⟨"d2", 110, none⟩, ⟨"d3", 95, none⟩]

/-- Outcome pattern: a fetch failure, then a 2xx parseable-but-throwing body
(`null`), then two sources with well-typed payloads. -/
def outsEx : List FetchOutcome :=
  [FetchOutcome.httpError, FetchOutcome.nullJson,
   FetchOutcome.payload pC1, FetchOutcome.payload pC2]

/-- Outcome pattern for the counterexample: the first source returns HTTP 200
with the parseable JSON document `null`; the second serves a well-typed
payload. -/
def outsC3 : List FetchOutcome := [FetchOutcome.nullJson, FetchOutcome.payload pC1]

/-! ## Helper lemmas -/

/-- Folding `+ f d` over a list from `s` adds the mapped sum. -/
theorem foldl_add_map {α : Type} (f : α → ℚ) :
    ∀ (l : List α) (s : ℚ), l.foldl (fun a d => a + f d) s = s + (l.map f).sum := by
  intro l
  induction l with
  | nil => simp
  | cons x xs ih => intro s; simp [ih, add_assoc]

/-! ## C6: refresh tick appends one point, caps history at 90 (FIFO) -/

/-- C6: every refresh tick appends exactly one `{date: now, price: currentPrice}`
point (price equal to the tick's updated current price); the stored history is
the last 90 entries of the appended list (oldest dropped first), its length is
`min (old + 1) 90`, and in particular it never exceeds 90 after any tick. -/
theorem tick_appends_then_caps_at_90 (pr : ℚ) (mr : String → ℚ) (vr : ℚ) (now : String)
    (s : AppState) :
    ∃ pt : HistPoint, pt.date = now ∧
      pt.price = (simulateMarketMovement pr mr vr now s).currentPrice ∧
      (simulateMarketMovement pr mr vr now s).historicalData
        = (s.historicalData ++ [pt]).drop (s.historicalData.length + 1 - 90) ∧
      (simulateMarketMovement pr mr vr now s).historicalData.length
        = min (s.historicalData.length + 1) 90 ∧
      (simulateMarketMovement pr mr vr now s).historicalData.length ≤ 90 := by
  refine ⟨{ date := now, price := s.currentPrice * (1 + (pr - 1/2) * (5/1000)),
            volume := some (jsFloor (vr * 100000) + 50000) }, rfl, rfl, ?_, ?_, ?_⟩
  · simp only [simulateMarketMovement, List.length_append, List.length_cons, List.length_nil]
    by_cases h : 90 < s.historicalData.length + 1
    · simp only [if_pos h]
    · simp only [if_neg h]
      have h0 : s.historicalData.length + 1 - 90 = 0 := by omega
      simp [h0]
  · simp only [simulateMarketMovement, List.length_append, List.length_cons, List.length_nil]
    by_cases h : 90 < s.historicalData.length + 1
    · simp only [if_pos h, List.length_drop, List.length_append, List.length_cons,
        List.length_nil]
      omega
    · simp only [if_neg h, List.length_append, List.length_cons, List.length_nil]
      omega
  · simp only [simulateMarketMovement, List.length_append, List.length_cons, List.length_nil]
    by_cases h : 90 < s.historicalData.length + 1
    · simp only [if_pos h, List.length_drop, List.length_append, List.length_cons,
        List.length_nil]
      omega
    · simp only [if_neg h, List.length_append, List.length_cons, List.length_nil]
      omega

/-! ## C10: the tick's frame — everything else is unchanged -/

/-- C10: `simulateMarketMovement` changes only `currentPrice`, the per-model
values of `predictions.today`, and `historicalData`; the week series, the
confidence, the backtesting data and the prediction-vs-actual series are
unchanged, and even the set and order of model keys in `today` is preserved. -/
theorem tick_frame_only_price_today_history (pr : ℚ) (mr : String → ℚ) (vr : ℚ)
    (now : String) (s : AppState) :
    (simulateMarketMovement pr mr vr now s).predictions.week = s.predictions.week ∧
    (simulateMarketMovement pr mr vr now s).predictions.confidence = s.predictions.confidence ∧
    (simulateMarketMovement pr mr vr now s).backtestingData = s.backtestingData ∧
    (simulateMarketMovement pr mr vr now s).predictionVsActual = s.predictionVsActual ∧
    (simulateMarketMovement pr mr vr now s).predictions.today.map Prod.fst
      = s.predictions.today.map Prod.fst := by
  refine ⟨rfl, rfl, rfl, rfl, ?_⟩
  simp [simulateMarketMovement]

/-! ## C7: all price field-name variants produce identical records -/

/-- C7: normalizing a historical entry with the numeric value in any of the four
accepted fields (`price`, `close`, `Close`, `c`) yields the same canonical
record, and resolution follows the fixed order `price ?? close ?? Close ?? c`
(an earlier field wins over any later ones). -/
theorem price_field_variants_identical (d : Option String) (v : JNum)
    (x y z : Option JNum) :
    (mapHistEntry ⟨d, some v, none, none, none⟩ = mapHistEntry ⟨d, none, some v, none, none⟩
      ∧ mapHistEntry ⟨d, none, some v, none, none⟩ = mapHistEntry ⟨d, none, none, some v, none⟩
      ∧ mapHistEntry ⟨d, none, none, some v, none⟩ = mapHistEntry ⟨d, none, none, none, some v⟩)
    ∧ normHistoricalData [⟨d, some v, none, none, none⟩]
        = normHistoricalData [⟨d, none, none, none, some v⟩]
    ∧ mapHistEntry ⟨d, some v, x, y, z⟩ = mapHistEntry ⟨d, some v, none, none, none⟩
    ∧ mapHistEntry ⟨d, none, some v, y, z⟩ = mapHistEntry ⟨d, none, some v, none, none⟩
    ∧ mapHistEntry ⟨d, none, none, some v, z⟩ = mapHistEntry ⟨d, none, none, some v, none⟩ :=
  ⟨⟨rfl, rfl, rfl⟩, rfl, rfl, rfl, rfl⟩

/-! ## C9: the implicit keep/drop rule of history normalization -/

/-- C9: a historical entry survives normalization iff its date is a truthy
(present, nonempty) string and its resolved price coerces to a nonzero number
(NaN and 0 are both dropped); an entry with price exactly 0 is dropped, a
negative price is retained, and a `current_price` of exactly 0 falls back to
the 2000 default. -/
theorem entry_kept_iff_truthy_date_and_nonzero_price :
    (∀ e : RawEntry, keepHist (mapHistEntry e) = true ↔
      ((∃ s, e.date = some s ∧ s ≠ "") ∧
       (∃ q, rawPriceField e = some (JNum.num q) ∧ q ≠ 0)))
    ∧ normHistoricalData [⟨some "2025-01-01", some (JNum.num 0), none, none, none⟩] = []
    ∧ normHistoricalData [⟨some "2025-01-01", some (JNum.num (-5)), none, none, none⟩]
        = [⟨"2025-01-01", -5, none⟩]
    ∧ ∀ (g : GPNoise) (b : ℕ → ℚ) (st : AppState),
        (processLoadedData pCp0 g b st).currentPrice = 2000 := by
  refine ⟨?_, by decide, by decide, ?_⟩
  · intro e
    simp only [keepHist, mapHistEntry, Bool.and_eq_true, decide_eq_true_eq]
    constructor
    · rintro ⟨hd, hp⟩
      constructor
      · rcases hde : e.date with _ | s
        · rw [hde] at hd; simp at hd
        · exact ⟨s, rfl, by rw [hde] at hd; simpa using hd⟩
      · rcases hpe : rawPriceField e with _ | j
        · rw [hpe] at hp; simp [numOr] at hp
        · rcases j with _ | q
          · rw [hpe] at hp; simp [numOr] at hp
          · refine ⟨q, rfl, ?_⟩
            rw [hpe] at hp
            intro h0
            rw [h0] at hp
            simp [numOr] at hp
    · rintro ⟨⟨str, hds, hne⟩, q, hpq, hq0⟩
      rw [hds, hpq]
      exact ⟨by simpa using hne, by simp [numOr, hq0]⟩
  · intro g b st
    simp [processLoadedData, pCp0, normCurrentPrice, numOr]

/-! ## C1: confidence is not clamped -/

/-- C1 counterexample: for a payload whose `confidence.ensemble.avg_confidence`
is 150, the stored confidence is 150, outside [0, 100] — the code applies no
clamping, contradicting the claim. -/
theorem confidence_escapes_range_at_150 :
    ¬ ((processLoadedData pC1 gEx bEx initState).predictions.confidence ≤ 100) := by
  decide

/-- C1 amended: on the main branch (payload has `predictions.models`), the
stored confidence is either the default 90 (avg_confidence absent, NaN or 0)
or the verbatim numeric value of `confidence.ensemble.avg_confidence`, with no
clamping into [0, 100]. -/
theorem confidence_default_or_passthrough (p : RawPayload) (g : GPNoise) (b : ℕ → ℚ)
    (st : AppState) (h : hasModels p = true) :
    (processLoadedData p g b st).predictions.confidence = 90 ∨
    (∃ cc e q, p.confidence = some cc ∧ cc.ensemble = some e ∧
      e.avg_confidence = some (JNum.num q) ∧ q ≠ 0 ∧
      (processLoadedData p g b st).predictions.confidence = q) := by
  rcases hp : p.predictions with _ | pr
  · simp [hasModels, hp] at h
  rcases hm : pr.models with _ | ms
  · simp [hasModels, hp, hm] at h
  have hconf : (processLoadedData p g b st).predictions.confidence
      = normConfidence p.confidence := by
    simp [processLoadedData, hp, hm]
  rw [hconf]
  rcases hc : p.confidence with _ | cc
  · left; simp [normConfidence]
  rcases he : cc.ensemble with _ | e
  · left; simp [normConfidence, he]
  rcases ha : e.avg_confidence with _ | j
  · left; simp [normConfidence, he, ha, numOr]
  rcases j with _ | q
  · left; simp [normConfidence, he, ha, numOr]
  by_cases hq : q = 0
  · left; simp [normConfidence, he, ha, numOr, hq]
  · right
    exact ⟨cc, e, q, rfl, he, ha, hq, by simp [normConfidence, he, ha, numOr, hq]⟩

/-- C1 amended, witnessed at the concrete payload `pC1`. -/
theorem confidence_default_or_passthrough_witness :
    hasModels pC1 = true ∧
    ((processLoadedData pC1 gEx bEx initState).predictions.confidence = 90 ∨
     (∃ cc e q, pC1.confidence = some cc ∧ cc.ensemble = some e ∧
       e.avg_confidence = some (JNum.num q) ∧ q ≠ 0 ∧
       (processLoadedData pC1 gEx bEx initState).predictions.confidence = q)) :=
  ⟨rfl, confidence_default_or_passthrough pC1 gEx bEx initState rfl⟩

/-! ## C8: normalization is deterministic only on the main branch -/

/-- C8 counterexample: for the empty payload (no `predictions.models`), the
fallback branch draws randomness — two runs with different draws produce
different confidences, so normalization of identical input is not
deterministic. -/
theorem fallback_branch_uses_randomness :
    (processLoadedData pEmpty gEx bEx initState).predictions.confidence ≠
    (processLoadedData pEmpty gB bEx initState).predictions.confidence := by
  simp [processLoadedData, pEmpty, generatePredictions, gEx, gB]

/-- C8 amended: for payloads that do have a `predictions.models` object, the
canonical output (current price, historical series, prediction set, and the
prediction-vs-actual series) is a pure function of the payload and prior
state: independent of every random draw. The backtest reconstruction and the
generated-predictions fallback are the only randomized parts. -/
theorem normalization_deterministic_with_models (p : RawPayload) (st : AppState)
    (g1 g2 : GPNoise) (b1 b2 : ℕ → ℚ) (h : hasModels p = true) :
    (processLoadedData p g1 b1 st).currentPrice = (processLoadedData p g2 b2 st).currentPrice ∧
    (processLoadedData p g1 b1 st).historicalData
      = (processLoadedData p g2 b2 st).historicalData ∧
    (processLoadedData p g1 b1 st).predictions = (processLoadedData p g2 b2 st).predictions ∧
    (processLoadedData p g1 b1 st).predictionVsActual
      = (processLoadedData p g2 b2 st).predictionVsActual := by
  rcases hp : p.predictions with _ | pr
  · simp [hasModels, hp] at h
  rcases hm : pr.models with _ | ms
  · simp [hasModels, hp, hm] at h
  refine ⟨?_, ?_, ?_, ?_⟩ <;> simp [processLoadedData, hp, hm]

/-- C8 amended, witnessed at the concrete payload `pC1` with two different
noise bundles. -/
theorem normalization_deterministic_with_models_witness :
    hasModels pC1 = true ∧
    ((processLoadedData pC1 gEx bEx initState).currentPrice
        = (processLoadedData pC1 gB bHalf initState).currentPrice ∧
     (processLoadedData pC1 gEx bEx initState).historicalData
        = (processLoadedData pC1 gB bHalf initState).historicalData ∧
     (processLoadedData pC1 gEx bEx initState).predictions
        = (processLoadedData pC1 gB bHalf initState).predictions ∧
     (processLoadedData pC1 gEx bEx initState).predictionVsActual
        = (processLoadedData pC1 gB bHalf initState).predictionVsActual) :=
  ⟨rfl, normalization_deterministic_with_models pC1 initState gEx gB bEx bHalf rfl⟩

/-! ## C2: the history invariant does not hold unconditionally -/

/-- C2 counterexample: a payload whose raw history lists the same date twice
yields a `historicalSeries` with duplicate dates — normalization neither sorts
nor deduplicates, contradicting the claimed invariant. -/
theorem history_duplicate_dates_retained :
    ¬ ((processLoadedData pC2 gEx bEx initState).historicalData.map HistPoint.date).Nodup := by
  decide

/-- C2 amended: normalization preserves the raw input's order verbatim
(dropping only malformed entries), so `historicalSeries` is strictly ascending
with unique dates exactly when the kept input entries already are; and a
refresh tick preserves strict ascent only under the extra assumption that the
tick's date is strictly later than every stored date. -/
theorem history_order_preservation_conditional :
    (∀ raw : List RawEntry,
      ((raw.map mapHistEntry).Pairwise fun a b => a.date < b.date) →
      (normHistoricalData raw).Pairwise fun a b => a.date < b.date)
    ∧ ∀ (pr : ℚ) (mr : String → ℚ) (vr : ℚ) (now : String) (s : AppState),
        (s.historicalData.Pairwise fun a b => a.date < b.date) →
        (∀ p ∈ s.historicalData, p.date < now) →
        (simulateMarketMovement pr mr vr now s).historicalData.Pairwise
          fun a b => a.date < b.date := by
  constructor
  · intro raw h
    exact h.sublist (List.filter_sublist _)
  · intro pr mr vr now s hsorted hlt
    have happ : List.Pairwise (fun a b : HistPoint => a.date < b.date)
        (s.historicalData ++
          [{ date := now, price := s.currentPrice * (1 + (pr - 1/2) * (5/1000)),
             volume := some (jsFloor (vr * 100000) + 50000) }]) := by
      rw [List.pairwise_append]
      refine ⟨hsorted, List.pairwise_singleton _ _, ?_⟩
      intro a ha b hb
      simp only [List.mem_singleton] at hb
      subst hb
      exact hlt a ha
    simp only [simulateMarketMovement]
    by_cases h : 90 < s.historicalData.length + 1
    · simp only [List.length_append, List.length_cons, List.length_nil, if_pos h]
      exact happ.sublist (List.drop_sublist _ _)
    · simp only [List.length_append, List.length_cons, List.length_nil, if_neg h]
      exact happ

/-- C2 amended, witnessed on a concrete sorted history and a later tick date. -/
theorem history_order_preservation_conditional_witness :
    (((rawHistoryOf pC1).map mapHistEntry).Pairwise fun a b => a.date < b.date) ∧
    ((normHistoricalData (rawHistoryOf pC1)).Pairwise fun a b => a.date < b.date) ∧
    (initState.historicalData.Pairwise fun a b => a.date < b.date) ∧
    (∀ p ∈ initState.historicalData, p.date < "2025-02-01") ∧
    ((simulateMarketMovement 0 (fun _ => 0) 0 "2025-02-01" initState).historicalData.Pairwise
      fun a b => a.date < b.date) :=
  ⟨by decide,
   history_order_preservation_conditional.1 (rawHistoryOf pC1) (by decide),
   by decide,
   by decide,
   history_order_preservation_conditional.2 0 (fun _ => 0) 0 "2025-02-01" initState
     (by decide) (by decide)⟩

/-! ## C3: sources tried in order; the loop stops at the first processed payload -/

/-- A non-loading attempt does not stop the loop. -/
theorem attemptedSources_cons_fail (o : FetchOutcome) (rest : List FetchOutcome)
    (h : o.isPayload = false) :
    attemptedSources (o :: rest) = o :: attemptedSources rest := by
  cases o with
  | httpError => rfl
  | parseError => rfl
  | nullJson => rfl
  | historyNotArray cp => rfl
  | payload q => simp [FetchOutcome.isPayload] at h

/-- A non-loading attempt shifts the winning index by one. -/
theorem firstSuccess_cons_fail (o : FetchOutcome) (rest : List FetchOutcome)
    (h : o.isPayload = false) :
    firstSuccess (o :: rest) = (firstSuccess rest).map fun ip => (ip.1 + 1, ip.2) := by
  cases o with
  | httpError => rfl
  | parseError => rfl
  | nullJson => rfl
  | historyNotArray cp => rfl
  | payload q => simp [FetchOutcome.isPayload] at h

/-- A non-loading attempt steps the loop into the remaining sources with its
partial mutation applied. -/
theorem loadLoop_cons_fail (g : GPNoise) (b : ℕ → ℚ) (o : FetchOutcome)
    (rest : List FetchOutcome) (st : AppState) (h : o.isPayload = false) :
    loadLoop g b (o :: rest) st = loadLoop g b rest (throwEffect o st) := by
  cases o with
  | httpError => rfl
  | parseError => rfl
  | nullJson => rfl
  | historyNotArray cp => rfl
  | payload q => simp [FetchOutcome.isPayload] at h

/-- If no source loads, the loop finds no winner. -/
theorem firstSuccess_eq_none (outs : List FetchOutcome)
    (h : outs.all (fun o => !o.isPayload) = true) : firstSuccess outs = none := by
  induction outs with
  | nil => rfl
  | cons o rest ih =>
    simp only [List.all_cons, Bool.and_eq_true, Bool.not_eq_true'] at h
    rw [firstSuccess_cons_fail o rest h.1, ih (by simpa using h.2)]
    rfl

/-- A non-loading attempt's partial mutation never touches the backtest series
or the prediction-vs-actual series. -/
theorem throwEffect_preserves (o : FetchOutcome) (st : AppState) :
    (throwEffect o st).backtestingData = st.backtestingData ∧
    (throwEffect o st).predictionVsActual = st.predictionVsActual := by
  cases o <;> simp [throwEffect]

/-- `processLoadedData` reads the prior state only through its
`predictionVsActual` field. -/
theorem processLoadedData_state (p : RawPayload) (g : GPNoise) (b : ℕ → ℚ)
    (st1 st2 : AppState) (hp : st1.predictionVsActual = st2.predictionVsActual) :
    processLoadedData p g b st1 = processLoadedData p g b st2 := by
  rcases hpr : p.predictions with _ | pr
  · simp [processLoadedData, hpr, hp]
  rcases hm : pr.models with _ | ms
  · simp [processLoadedData, hpr, hm, hp]
  rcases hpva : p.prediction_vs_actual with _ | l
  · simp [processLoadedData, hpr, hm, hpva, hp]
  · simp [processLoadedData, hpr, hm, hpva]

/-- C3 counterexample: source 0 returns a 2xx response with parseable JSON
(the document `null`), yet source 1 *is* attempted — `processLoadedData`
throws on the null body inside the loop's `try`, the `catch` swallows the
error, and the loop advances, so the payload processed is the *second*
source's.  This refutes "never attempts source k+1 once source k has returned
a successful (2xx) response with parseable JSON". -/
theorem parseable_null_body_does_not_stop_loop :
    attemptedSources outsC3 = [FetchOutcome.nullJson, FetchOutcome.payload pC1] ∧
    firstSuccess outsC3 = some (1, pC1) ∧
    loadData outsC3 gEx bEx bHalf bHalf dEx gEx initState
      = processLoadedData pC1 gEx bEx initState :=
  ⟨rfl, rfl, rfl⟩

/-- C3 amended: sources are attempted strictly one at a time in priority
order, and the loop stops at the first source whose payload parses *and* is
processed without throwing; a 2xx parseable body on which processing throws
does not stop it.  If source `k` is the first such source, exactly sources
`0..k` are attempted (source `k+1` is never tried), the winner is source `k`,
and source `k`'s payload is the one processed. -/
theorem sources_tried_in_order_until_processed
    (outs : List FetchOutcome) (k : ℕ) (p : RawPayload) (g : GPNoise) (b : ℕ → ℚ)
    (hN vN : ℕ → ℚ) (dateOf : ℤ → String) (gs : GPNoise) (s : AppState)
    (hk : outs[k]? = some (FetchOutcome.payload p))
    (hbefore : (outs.take k).all (fun o => !o.isPayload) = true) :
    attemptedSources outs = outs.take (k + 1) ∧
    firstSuccess outs = some (k, p) ∧
    loadData outs g b hN vN dateOf gs s = processLoadedData p g b s := by
  induction outs generalizing k s with
  | nil => simp at hk
  | cons o rest ih =>
    cases k with
    | zero =>
      simp only [List.getElem?_cons_zero, Option.some.injEq] at hk
      subst hk
      exact ⟨rfl, rfl, rfl⟩
    | succ k =>
      simp only [List.take_succ_cons, List.all_cons, Bool.and_eq_true,
        Bool.not_eq_true'] at hbefore
      obtain ⟨ho, hrest⟩ := hbefore
      simp only [List.getElem?_cons_succ] at hk
      obtain ⟨h1, h2, h3⟩ := ih k (throwEffect o s) hk hrest
      refine ⟨?_, ?_, ?_⟩
      · rw [attemptedSources_cons_fail o rest ho, h1, List.take_succ_cons]
      · rw [firstSuccess_cons_fail o rest ho, h2]
        rfl
      · have hstep : loadData (o :: rest) g b hN vN dateOf gs s
            = loadData rest g b hN vN dateOf gs (throwEffect o s) := by
          unfold loadData
          rw [loadLoop_cons_fail g b o rest s ho]
        rw [hstep, h3]
        exact processLoadedData_state p g b (throwEffect o s) s (throwEffect_preserves o s).2

/-- C3 amended, witnessed: after a fetch failure and a throwing `null` body,
the third source's payload is processed and the fourth is never attempted. -/
theorem sources_tried_in_order_until_processed_witness :
    (outsEx[2]? = some (FetchOutcome.payload pC1) ∧
     (outsEx.take 2).all (fun o => !o.isPayload) = true) ∧
    (attemptedSources outsEx = outsEx.take (2 + 1) ∧
     firstSuccess outsEx = some (2, pC1) ∧
     loadData outsEx gEx bEx bHalf bHalf dEx gEx initState
       = processLoadedData pC1 gEx bEx initState) :=
  ⟨⟨rfl, rfl⟩,
   sources_tried_in_order_until_processed outsEx 2 pC1 gEx bEx bHalf bHalf dEx gEx
     initState rfl rfl⟩

/-! ## C5: total fallback generates the synthetic dataset -/

/-- Each sample-loop iteration appends exactly one point. -/
theorem sampleStep_length (hN vN : ℕ → ℚ) (dateOf : ℤ → String) (acc : List HistPoint)
    (i : ℕ) : (sampleStep hN vN dateOf acc i).length = acc.length + 1 := by
  simp [sampleStep]

/-- Folding the sample step over any index list adds one point per index. -/
theorem sampleFold_length (hN vN : ℕ → ℚ) (dateOf : ℤ → String) :
    ∀ (l : List ℕ) (acc : List HistPoint),
      (l.foldl (fun a j => sampleStep hN vN dateOf a (sampleDays - j)) acc).length
        = acc.length + l.length := by
  intro l
  induction l with
  | nil => intro acc; simp
  | cons x xs ih =>
    intro acc
    simp only [List.foldl_cons, ih, sampleStep_length, List.length_cons]
    omega

/-- The synthetic history has exactly 91 points (90 days plus today). -/
theorem sampleHist_length (hN vN : ℕ → ℚ) (dateOf : ℤ → String) :
    (sampleHist hN vN dateOf).length = 91 := by
  rw [sampleHist, sampleFold_length]
  simp [sampleDays]

/-- The 7-day loop produces one point per unit of fuel. -/
theorem weekFrom_length (rW : ℕ → ℚ) (dW : ℕ → String) :
    ∀ (fuel i : ℕ) (pred : ℚ), (weekFrom rW dW i fuel pred).length = fuel := by
  intro fuel
  induction fuel with
  | zero => intro i pred; rfl
  | succ n ih => intro i pred; simp [weekFrom, ih]

/-- `generateSampleData` reads the prior state only through its
`backtestingData` and `predictionVsActual` fields (everything else is
overwritten). -/
theorem generateSampleData_state (hN vN : ℕ → ℚ) (dateOf : ℤ → String) (g : GPNoise)
    (st1 st2 : AppState) (hb : st1.backtestingData = st2.backtestingData)
    (hp : st1.predictionVsActual = st2.predictionVsActual) :
    generateSampleData hN vN dateOf g st1 = generateSampleData hN vN dateOf g st2 := by
  cases st1
  cases st2
  simp_all [generateSampleData]

/-- If no source loads, the loop ends with `loaded = false`, in a state whose
backtest and prediction-vs-actual fields are untouched. -/
theorem loadLoop_all_fail (g : GPNoise) (b : ℕ → ℚ) :
    ∀ (outs : List FetchOutcome) (st : AppState),
      outs.all (fun o => !o.isPayload) = true →
      (loadLoop g b outs st).2 = false ∧
      (loadLoop g b outs st).1.backtestingData = st.backtestingData ∧
      (loadLoop g b outs st).1.predictionVsActual = st.predictionVsActual := by
  intro outs
  induction outs with
  | nil => intro st _; exact ⟨rfl, rfl, rfl⟩
  | cons o rest ih =>
    intro st h
    simp only [List.all_cons, Bool.and_eq_true, Bool.not_eq_true'] at h
    rw [loadLoop_cons_fail g b o rest st h.1]
    obtain ⟨e1, e2, e3⟩ := ih (throwEffect o st) (by simpa using h.2)
    obtain ⟨t1, t2⟩ := throwEffect_preserves o st
    exact ⟨e1, by rw [e2, t1], by rw [e3, t2]⟩

/-- C5: when every source fails, `loadData` invokes the synthetic generator,
which produces exactly 91 historical points and a 7-entry week series, with
the current price equal to the price of the last generated historical point. -/
theorem all_sources_failed_generates_sample_data
    (outs : List FetchOutcome) (g : GPNoise) (b : ℕ → ℚ) (hN vN : ℕ → ℚ)
    (dateOf : ℤ → String) (gs : GPNoise) (s : AppState)
    (h : outs.all (fun o => !o.isPayload) = true) :
    loadData outs g b hN vN dateOf gs s = generateSampleData hN vN dateOf gs s ∧
    (loadData outs g b hN vN dateOf gs s).historicalData.length = 91 ∧
    (loadData outs g b hN vN dateOf gs s).predictions.week.length = 7 ∧
    ∃ lastPt : HistPoint,
      (loadData outs g b hN vN dateOf gs s).historicalData.getLast? = some lastPt ∧
      (loadData outs g b hN vN dateOf gs s).currentPrice = lastPt.price := by
  have hl : loadData outs g b hN vN dateOf gs s = generateSampleData hN vN dateOf gs s := by
    have hloop := loadLoop_all_fail g b outs s h
    unfold loadData
    rcases hll : loadLoop g b outs s with ⟨st2, fl⟩
    rw [hll] at hloop
    cases fl with
    | false =>
      exact generateSampleData_state hN vN dateOf gs st2 s hloop.2.1 hloop.2.2
    | true => simp at hloop
  refine ⟨hl, ?_, ?_, ?_⟩
  · rw [hl]
    simp [generateSampleData, sampleHist_length]
  · rw [hl]
    simp [generateSampleData, generatePredictions, weekFrom_length]
  · rw [hl]
    have hne : sampleHist hN vN dateOf ≠ [] := by
      intro hnil
      have hlen := sampleHist_length hN vN dateOf
      rw [hnil] at hlen
      simp at hlen
    rcases hgl : (sampleHist hN vN dateOf).getLast? with _ | lastPt
    · exact absurd (List.getLast?_eq_none_iff.mp hgl) hne
    · exact ⟨lastPt, by simp [generateSampleData, hgl], by simp [generateSampleData, hgl]⟩

/-- All three sources returning HTTP errors. -/
def outsFail : List FetchOutcome :=
  [FetchOutcome.httpError, FetchOutcome.httpError, FetchOutcome.httpError]

/-- C5, witnessed at three failing sources and concrete noise. -/
theorem all_sources_failed_generates_sample_data_witness :
    (outsFail.all (fun o => !o.isPayload) = true) ∧
    (loadData outsFail gEx bEx bHalf bHalf dEx gEx initState
        = generateSampleData bHalf bHalf dEx gEx initState ∧
     (loadData outsFail gEx bEx bHalf bHalf dEx gEx initState).historicalData.length = 91 ∧
     (loadData outsFail gEx bEx bHalf bHalf dEx gEx initState).predictions.week.length = 7 ∧
     ∃ lastPt : HistPoint,
       (loadData outsFail gEx bEx bHalf bHalf dEx gEx initState).historicalData.getLast?
         = some lastPt ∧
       (loadData outsFail gEx bEx bHalf bHalf dEx gEx initState).currentPrice
         = lastPt.price) :=
  ⟨by decide,
   all_sources_failed_generates_sample_data outsFail gEx bEx bHalf bHalf dEx gEx initState
     (by decide)⟩

/-! ## C4: mae/mape are exact prefix means on the synthetic backtest -/

/-- The rolling-mean invariant: every stored `mae` (`mape`) equals the
arithmetic mean of the `error` (`errorPercent`) values of that record and all
records before it. -/
def prefixMeanInv (l : List BacktestRecord) : Prop :=
  ∀ k, k < l.length →
    (l[k]?).map BacktestRecord.mae
      = some (((l.take (k+1)).map BacktestRecord.error).sum / ((k : ℚ) + 1)) ∧
    (l[k]?).map BacktestRecord.mape
      = some (((l.take (k+1)).map BacktestRecord.errorPercent).sum / ((k : ℚ) + 1))

/-- One synthetic step preserves the rolling-mean invariant. -/
theorem btStep_preserves_prefixMeanInv (acc : List BacktestRecord) (x y : HistPoint)
    (r : ℚ) (h : prefixMeanInv acc) : prefixMeanInv (btStep acc x y r) := by
  intro k hk
  simp only [btStep, List.length_append, List.length_cons, List.length_nil] at hk
  by_cases hlt : k < acc.length
  · have e1 : (btStep acc x y r)[k]? = acc[k]? := by
      simp only [btStep]
      exact List.getElem?_append_left hlt
    have e2 : (btStep acc x y r).take (k+1) = acc.take (k+1) := by
      simp only [btStep]
      exact List.take_append_of_le_length (by omega)
    rw [e1, e2]
    exact h k hlt
  · have hke : k = acc.length := by omega
    subst hke
    have e1 : ∀ rec : BacktestRecord, (acc ++ [rec])[acc.length]? = some rec :=
      fun rec => List.getElem?_concat_length acc rec
    have e2 : ∀ rec : BacktestRecord, (acc ++ [rec]).take (acc.length + 1) = acc ++ [rec] :=
      fun rec => List.take_of_length_le (by simp)
    by_cases h0 : 0 < acc.length
    · simp only [btStep, e1, e2, Option.map_some, List.map_append, List.sum_append,
        List.map_cons, List.map_nil, List.sum_cons, List.sum_nil, if_pos h0,
        Option.some.injEq]
      rw [foldl_add_map, foldl_add_map]
      constructor <;> ring_nf <;> rfl
    · have hacc : acc = [] := List.length_eq_zero.mp (by omega)
      subst hacc
      simp only [btStep, List.nil_append, List.length_nil, lt_irrefl, if_neg h0,
        List.getElem?_cons_zero, Option.map_some, List.take_succ_cons, List.take_nil,
        List.map_cons, List.map_nil, List.sum_cons, List.sum_nil, Nat.cast_zero,
        Option.some.injEq]
      constructor <;> simp

/-- The whole synthetic loop preserves the rolling-mean invariant. -/
theorem btLoop_preserves_prefixMeanInv (b : ℕ → ℚ) :
    ∀ (w : List HistPoint) (i : ℕ) (acc : List BacktestRecord),
      prefixMeanInv acc → prefixMeanInv (btLoop b acc w i) := by
  intro w
  induction w with
  | nil => intro i acc h; simpa [btLoop] using h
  | cons x xs ih =>
    cases xs with
    | nil => intro i acc h; simpa [btLoop] using h
    | cons y rest =>
      intro i acc h
      have hstep : btLoop b acc (x :: y :: rest) i
          = btLoop b (btStep acc x y (b i)) (y :: rest) (i + 1) := rfl
      rw [hstep]
      exact ih (i + 1) _ (btStep_preserves_prefixMeanInv acc x y (b i) h)

/-- C4: for a synthetic backtest built with no upstream evaluation record, the
`mae` stored on the k-th record is the exact arithmetic mean of the `error`
values of records 1..k (a strict running prefix mean), and `mape` likewise
over `errorPercent` — for every k. -/
theorem backtest_mae_mape_prefix_mean (p : RawPayload) (b : ℕ → ℚ)
    (hist : List HistPoint) (hev : p.evaluation = none) (k : ℕ)
    (hk : k < (processBacktestingData p b hist).length) :
    ((processBacktestingData p b hist)[k]?).map BacktestRecord.mae
      = some ((((processBacktestingData p b hist).take (k+1)).map BacktestRecord.error).sum
          / ((k : ℚ) + 1)) ∧
    ((processBacktestingData p b hist)[k]?).map BacktestRecord.mape
      = some ((((processBacktestingData p b hist).take (k+1)).map
            BacktestRecord.errorPercent).sum / ((k : ℚ) + 1)) := by
  have hbase : processBacktestingData p b hist
      = btLoop b [] (hist.drop (hist.length - 30)) 1 := by
    simp [processBacktestingData, hev]
  have hinv : prefixMeanInv (btLoop b [] (hist.drop (hist.length - 30)) 1) :=
    btLoop_preserves_prefixMeanInv b _ 1 [] (by intro j hj; simp at hj)
  rw [hbase] at hk ⊢
  exact hinv k hk

/-- C4, witnessed on a concrete three-point window at k = 1 (second record). -/
theorem backtest_mae_mape_prefix_mean_witness :
    pEmpty.evaluation = none ∧
    1 < (processBacktestingData pEmpty bHalf wEx).length ∧
    (((processBacktestingData pEmpty bHalf wEx)[1]?).map BacktestRecord.mae
      = some ((((processBacktestingData pEmpty bHalf wEx).take (1+1)).map
            BacktestRecord.error).sum / (((1 : ℕ) : ℚ) + 1)) ∧
     ((processBacktestingData pEmpty bHalf wEx)[1]?).map BacktestRecord.mape
      = some ((((processBacktestingData pEmpty bHalf wEx).take (1+1)).map
            BacktestRecord.errorPercent).sum / (((1 : ℕ) : ℚ) + 1))) :=
  ⟨rfl, by decide, backtest_mae_mape_prefix_mean pEmpty bHalf wEx rfl 1 (by decide)⟩

end GoldForecast
